import Mathlib

/-!
Verification development for the semantic context engine of the
AI-Finance-Team repository.

The development gives a shallow embedding of the retrieval, caching and
SQL-validation code:

* `QueryCache` models the result/embedding cache (query-cache module):
  the md5 key derivation is abstracted into an explicit key function
  parameter `hash`, and the ambient clock (`Date.now()`) is passed as an
  explicit `now : Int` argument, so every operation is a pure function.
* `SemanticRetriever` logic (intent detection, intent filtering,
  relationship expansion, context rendering, token estimation and
  `buildContext`) is embedded as pure functions; the results of the
  external embedder and vector store calls are passed in explicitly via a
  `RetrievalEnv` record, since those collaborators are out of process.
* The SQL validator (`validateQuery` and its helpers) is embedded over a
  faithful transcription of the static schema registry, with the regex
  based extraction functions re-expressed as character-list scanners with
  the same matching semantics.

All definitions are executable, so theorems about concrete inputs are
settled by `decide` / `rfl`.
-/

set_option maxRecDepth 8000

namespace FinanceAgent

/-! ## Character and string utilities used by the embedding -/

/-- JavaScript word character class `\w`, that is `[A-Za-z0-9_]`. -/
def isWordChar (c : Char) : Bool :=
  c.isAlphanum || c == '_'

/-- Whitespace class `\s` restricted to the ASCII whitespace characters. -/
def isSpaceChar (c : Char) : Bool :=
  c == ' ' || c == '\t' || c == '\n' || c == '\r'

/-- Case-insensitive character comparison (ASCII case folding). -/
def eqCI (a b : Char) : Bool :=
  a.toLower == b.toLower

/-- Case-insensitive test that `pat` is a prefix of `text`. -/
def ciStarts : List Char → List Char → Bool
  | [], _ => true
  | _ :: _, [] => false
  | p :: ps, c :: cs => eqCI p c && ciStarts ps cs

/-- Exact (case-sensitive) test that `pat` is a prefix of `text`. -/
def litStarts : List Char → List Char → Bool
  | [], _ => true
  | _ :: _, [] => false
  | p :: ps, c :: cs => (p == c) && litStarts ps cs

/-- Exact substring test, mirroring JavaScript `String.prototype.includes`. -/
def containsSub : List Char → List Char → Bool
  | [], kw => kw.isEmpty
  | text@(_ :: rest), kw => litStarts kw text || containsSub rest kw

/-- Lowercased copy of a string (`toLowerCase` on ASCII). -/
def lowerStr (s : String) : String :=
  ⟨s.data.map Char.toLower⟩

/-- Uppercased copy of a string (`toUpperCase` on ASCII). -/
def upperStr (s : String) : String :=
  ⟨s.data.map Char.toUpper⟩

/-- JavaScript `a.includes(b)` on strings (case sensitive). -/
def strContains (s sub : String) : Bool :=
  containsSub s.data sub.data

/-! ## Association-map primitives

JavaScript `Map` objects keyed by strings are modelled as association
lists with unique keys: `mapSet` replaces in place (keeping the position
of an existing key, as `Map.prototype.set` does), `mapGet` finds the
entry, `mapDelete` removes it. -/

/-- Lookup in an association list (first entry with the key). -/
def mapGet {V : Type} : List (String × V) → String → Option V
  | [], _ => none
  | (k₁, v) :: rest, k => if k₁ = k then some v else mapGet rest k

/-- Insert or replace, keeping the position of an existing key. -/
def mapSet {V : Type} : List (String × V) → String → V → List (String × V)
  | [], k, v => [(k, v)]
  | (k₁, v₁) :: rest, k, v =>
    if k₁ = k then (k, v) :: rest else (k₁, v₁) :: mapSet rest k v

/-- Remove the entry with the given key, when present. -/
def mapDelete {V : Type} : List (String × V) → String → List (String × V)
  | [], _ => []
  | (k₁, v₁) :: rest, k =>
    if k₁ = k then rest else (k₁, v₁) :: mapDelete rest k

theorem mapGet_mapSet_self {V : Type} (m : List (String × V)) (k : String) (v : V) :
    mapGet (mapSet m k v) k = some v := by
  induction m with
  | nil => simp [mapSet, mapGet]
  | cons hd tl ih =>
    obtain ⟨k₁, v₁⟩ := hd
    by_cases h : k₁ = k
    · simp [mapSet, mapGet, h]
    · simp [mapSet, mapGet, h, ih]

theorem mapGet_of_key_not_mem {V : Type} (m : List (String × V)) (k : String)
    (h : k ∉ m.map Prod.fst) : mapGet m k = none := by
  induction m with
  | nil => rfl
  | cons hd tl ih =>
    obtain ⟨k₁, v₁⟩ := hd
    simp only [List.map_cons, List.mem_cons, not_or] at h
    simp only [mapGet, if_neg (fun he : k₁ = k => h.1 he.symm)]
    exact ih h.2

theorem mapGet_mapDelete_self {V : Type} (m : List (String × V)) (k : String)
    (hnd : (m.map Prod.fst).Nodup) :
    mapGet (mapDelete m k) k = none := by
  induction m with
  | nil => rfl
  | cons hd tl ih =>
    obtain ⟨k₁, v₁⟩ := hd
    simp only [List.map_cons, List.nodup_cons] at hnd
    by_cases h : k₁ = k
    · subst h
      simp only [mapDelete, if_pos rfl]
      exact mapGet_of_key_not_mem tl k₁ hnd.1
    · simp only [mapDelete, if_neg h, mapGet, if_neg h]
      exact ih hnd.2

/-! ## QueryCache

Embedding of the `QueryCache` class: two independent namespaces, a
result cache whose entries carry their own ttl, and an embedding cache
with a fixed one-hour ttl. Expiry is checked at read time and expired
entries are deleted on read. -/

/-- One result-cache entry: payload, creation time and ttl. -/
structure CachedResult (α : Type) where
  data : α
  timestamp : Int
  ttl : Int
  deriving Repr, DecidableEq

/-- One embedding-cache entry: the vector and its creation time. -/
structure EmbedEntry (β : Type) where
  vector : β
  timestamp : Int
  deriving Repr, DecidableEq

/-- The two cache namespaces of the `QueryCache` class. -/
structure QueryCache (α β : Type) where
  resultCache : List (String × CachedResult α)
  embeddingCache : List (String × EmbedEntry β)
  deriving Repr, DecidableEq

/-- Default result ttl: five minutes in milliseconds. -/
def DEFAULT_TTL : Int := 5 * 60 * 1000

/-- Fixed embedding ttl: one hour in milliseconds. -/
def EMBEDDING_TTL : Int := 60 * 60 * 1000

/-- `cacheResult(query, data, ttl)` at time `now` under key function `hash`. -/
def cacheResult {α β : Type} (c : QueryCache α β) (hash : String → String)
    (now : Int) (query : String) (data : α) (ttl : Int) : QueryCache α β :=
  { c with resultCache := mapSet c.resultCache (hash query) ⟨data, now, ttl⟩ }

/-- `getResult(query)` at time `now`: the returned value together with the
cache after the read (an expired entry is deleted by the read). -/
def getResult {α β : Type} (c : QueryCache α β) (hash : String → String)
    (now : Int) (query : String) : Option α × QueryCache α β :=
  match mapGet c.resultCache (hash query) with
  | none => (none, c)
  | some cached =>
    if now - cached.timestamp > cached.ttl then
      (none, { c with resultCache := mapDelete c.resultCache (hash query) })
    else
      (some cached.data, c)

/-- `cacheEmbedding(text, vector)` at time `now`. -/
def cacheEmbedding {α β : Type} (c : QueryCache α β) (hash : String → String)
    (now : Int) (text : String) (vector : β) : QueryCache α β :=
  { c with embeddingCache := mapSet c.embeddingCache (hash text) ⟨vector, now⟩ }

/-- `getEmbedding(text)` at time `now`, with the fixed one-hour ttl. -/
def getEmbedding {α β : Type} (c : QueryCache α β) (hash : String → String)
    (now : Int) (text : String) : Option β × QueryCache α β :=
  match mapGet c.embeddingCache (hash text) with
  | none => (none, c)
  | some cached =>
    if now - cached.timestamp > EMBEDDING_TTL then
      (none, { c with embeddingCache := mapDelete c.embeddingCache (hash text) })
    else
      (some cached.vector, c)

/-- C9: for both cache namespaces a read whose age exceeds the ttl is a
miss and removes the entry, a read within the ttl returns exactly the
stored value for the same key text, and an embedding cached at time `T`
and read at `T + EMBEDDING_TTL + ε` (`ε > 0`) is a miss, so the embedding
is recomputed. -/
theorem cache_read_ttl_semantics {α β : Type} :
    (∀ (c : QueryCache α β) (hash : String → String) (now : Int) (q : String)
        (e : CachedResult α),
      mapGet c.resultCache (hash q) = some e →
      e.ttl < now - e.timestamp →
      (getResult c hash now q).1 = none ∧
        ((c.resultCache.map Prod.fst).Nodup →
          mapGet (getResult c hash now q).2.resultCache (hash q) = none)) ∧
    (∀ (c : QueryCache α β) (hash : String → String) (t₀ t₁ : Int) (q : String)
        (v : α) (ttl : Int),
      t₁ - t₀ ≤ ttl →
      (getResult (cacheResult c hash t₀ q v ttl) hash t₁ q).1 = some v) ∧
    (∀ (c : QueryCache α β) (hash : String → String) (now : Int) (t : String)
        (e : EmbedEntry β),
      mapGet c.embeddingCache (hash t) = some e →
      EMBEDDING_TTL < now - e.timestamp →
      (getEmbedding c hash now t).1 = none ∧
        ((c.embeddingCache.map Prod.fst).Nodup →
          mapGet (getEmbedding c hash now t).2.embeddingCache (hash t) = none)) ∧
    (∀ (c : QueryCache α β) (hash : String → String) (t₀ t₁ : Int) (t : String)
        (vec : β),
      t₁ - t₀ ≤ EMBEDDING_TTL →
      (getEmbedding (cacheEmbedding c hash t₀ t vec) hash t₁ t).1 = some vec) ∧
    (∀ (c : QueryCache α β) (hash : String → String) (t₀ ε : Int) (t : String)
        (vec : β),
      0 < ε →
      (getEmbedding (cacheEmbedding c hash t₀ t vec) hash (t₀ + EMBEDDING_TTL + ε) t).1
        = none) := by
  refine ⟨?_, ?_, ?_, ?_, ?_⟩
  · intro c hash now q e hget hexp
    constructor
    · simp only [getResult, hget]
      rw [if_pos (by omega)]
    · intro hnd
      simp only [getResult, hget]
      rw [if_pos (by omega)]
      exact mapGet_mapDelete_self _ _ hnd
  · intro c hash t₀ t₁ q v ttl hle
    simp only [getResult, cacheResult, mapGet_mapSet_self]
    rw [if_neg (by omega)]
  · intro c hash now t e hget hexp
    constructor
    · simp only [getEmbedding, hget]
      rw [if_pos (by omega)]
    · intro hnd
      simp only [getEmbedding, hget]
      rw [if_pos (by omega)]
      exact mapGet_mapDelete_self _ _ hnd
  · intro c hash t₀ t₁ t vec hle
    simp only [getEmbedding, cacheEmbedding, mapGet_mapSet_self]
    rw [if_neg (by omega)]
  · intro c hash t₀ ε t vec hε
    simp only [getEmbedding, cacheEmbedding, mapGet_mapSet_self]
    rw [if_pos (by omega)]

/-- Witness for C9: a concrete result hit within ttl, a concrete
embedding hit within ttl, a concrete expired embedding read at
`T + EMBEDDING_TTL + 1`, and a concrete expired result read that deletes
the entry. -/
theorem cache_read_ttl_semantics_witness :
    ((getResult (cacheResult (⟨[], []⟩ : QueryCache Nat Nat) (fun s => s) 0 "q" 7 300000)
        (fun s => s) 299999 "q").1 = some 7) ∧
    ((getEmbedding (cacheEmbedding (⟨[], []⟩ : QueryCache Nat Nat) (fun s => s) 0 "t" 42)
        (fun s => s) 3600000 "t").1 = some 42) ∧
    ((getEmbedding (cacheEmbedding (⟨[], []⟩ : QueryCache Nat Nat) (fun s => s) 0 "t" 42)
        (fun s => s) (0 + EMBEDDING_TTL + 1) "t").1 = none) ∧
    ((getResult (⟨[("q", ⟨5, 0, 1000⟩)], []⟩ : QueryCache Nat Nat)
        (fun s => s) 2000 "q").1 = none ∧
      ((([("q", (⟨5, 0, 1000⟩ : CachedResult Nat))].map Prod.fst).Nodup) →
        mapGet (getResult (⟨[("q", ⟨5, 0, 1000⟩)], []⟩ : QueryCache Nat Nat)
          (fun s => s) 2000 "q").2.resultCache "q" = none)) :=
  ⟨cache_read_ttl_semantics.2.1 _ (fun s => s) 0 299999 "q" 7 300000 (by decide),
   cache_read_ttl_semantics.2.2.2.1 _ (fun s => s) 0 3600000 "t" 42 (by decide),
   cache_read_ttl_semantics.2.2.2.2 _ (fun s => s) 0 1 "t" 42 (by decide),
   cache_read_ttl_semantics.1 _ (fun s => s) 2000 "q" ⟨5, 0, 1000⟩ (by decide) (by decide)⟩

/-! ## Schema registry data model

Types transcribed from the schema-registry module: column metadata,
per-table relationships, table schemas, and the full registry as an
ordered string-keyed map (JavaScript object property order is insertion
order, so an association list preserves it). -/

/-- Column metadata (`ColumnInfo`). -/
structure ColumnInfo where
  type : String
  description : Option String
  values : Option (List String)
  unit : Option String
  aggregatable : Option String
  deriving Repr, DecidableEq

/-- A foreign-key style relationship entry (`Relationship`). -/
structure TableRel where
  table : String
  join_key : String
  deriving Repr, DecidableEq

/-- One table of the registry (`TableSchema`). -/
structure TableSchema where
  table_name : String
  description : String
  columns : List (String × ColumnInfo)
  relationships : List TableRel
  sensitive_fields : List String
  deriving Repr, DecidableEq

/-- The registry (`FullSchema`): ordered map from table name to schema. -/
abbrev FullSchema := List (String × TableSchema)

/-- Property access `schema[tableName]`. -/
def lookupTable (schema : FullSchema) (name : String) : Option TableSchema :=
  mapGet schema name

/-- Property access `tableSchema.columns[columnName]`. -/
def lookupColumn (ts : TableSchema) (name : String) : Option ColumnInfo :=
  mapGet ts.columns name

/-! ## SemanticRetriever data model -/

/-- A retrieved example-query pattern (`RetrievedModel`). Scores are only
carried along, never computed with, so they are embedded as `Int`. -/
structure RetrievedModel where
  id : String
  name : String
  description : String
  sql : String
  score : Int
  deriving Repr, DecidableEq

/-- A retrieved column descriptor (`RetrievedColumn`). The mapping layer
always materialises `description` as a string (empty when absent), while
`unit` stays absent when falsy, so the embedding mirrors that. -/
structure RetrievedColumn where
  table : String
  column : String
  type : String
  description : String
  unit : Option String
  score : Int
  deriving Repr, DecidableEq

/-- A relationship edge in the retrieval output (`RetrievedRelationship`). -/
structure RetrievedRelationship where
  from_table : String
  to_table : String
  join_condition : String
  deriving Repr, DecidableEq

/-- The per-call retrieval output (`SemanticContext`). -/
structure SemanticContext where
  models : List RetrievedModel
  columns : List RetrievedColumn
  relationships : List RetrievedRelationship
  tables_involved : List String
  context_text : String
  token_estimate : Nat
  deriving Repr, DecidableEq

/-- The closed intent enumeration (`QueryIntent`). -/
inductive QueryIntent where
  | COUNT
  | JOIN
  | AGGREGATE
  | TIME_BASED
  | RANK
  | FILTER
  | UNKNOWN
  deriving Repr, DecidableEq

/-! ## Intent detection and filtering -/

/-- `detectQueryIntent`: first-match-wins keyword classification over the
lowercased query text. -/
def detectQueryIntent (query : String) : QueryIntent :=
  let lowerQuery := lowerStr query
  if strContains lowerQuery "how many" || strContains lowerQuery "count" ||
      strContains lowerQuery "total number" then
    QueryIntent.COUNT
  else if strContains lowerQuery "join" || strContains lowerQuery "relate" ||
      strContains lowerQuery "associate" ||
      (strContains lowerQuery "with" && strContains lowerQuery "their") then
    QueryIntent.JOIN
  else if strContains lowerQuery "month" || strContains lowerQuery "year" ||
      strContains lowerQuery "date" || strContains lowerQuery "timeline" ||
      strContains lowerQuery "trend" || strContains lowerQuery "over time" then
    QueryIntent.TIME_BASED
  else if strContains lowerQuery "top" || strContains lowerQuery "bottom" ||
      strContains lowerQuery "rank" || strContains lowerQuery "highest" ||
      strContains lowerQuery "lowest" || strContains lowerQuery "best" ||
      strContains lowerQuery "worst" then
    QueryIntent.RANK
  else if strContains lowerQuery "average" || strContains lowerQuery "sum" ||
      strContains lowerQuery "total" || strContains lowerQuery "breakdown" ||
      strContains lowerQuery "distribution" || strContains lowerQuery "analysis by" then
    QueryIntent.AGGREGATE
  else if strContains lowerQuery "where" || strContains lowerQuery "filter" ||
      strContains lowerQuery "specific" || strContains lowerQuery "over budget" ||
      strContains lowerQuery "exceeds" then
    QueryIntent.FILTER
  else
    QueryIntent.UNKNOWN

/-- The operation keywords associated with each intent
(`intentOperations`). -/
def intentOperations : QueryIntent → List String
  | QueryIntent.COUNT => ["COUNT"]
  | QueryIntent.JOIN => ["JOIN", "LEFT JOIN"]
  | QueryIntent.AGGREGATE => ["GROUP BY", "SUM", "AVG"]
  | QueryIntent.TIME_BASED => ["DATE", "DATE_TRUNC", "INTERVAL"]
  | QueryIntent.RANK => ["ORDER BY", "LIMIT"]
  | QueryIntent.FILTER => ["WHERE"]
  | QueryIntent.UNKNOWN => []

/-- `filterModelsByIntent`: keeps models whose uppercased SQL contains one
of the operations of the intent; when the intent has no associated
operations the list is returned unchanged. -/
def filterModelsByIntent (models : List RetrievedModel) (intent : QueryIntent) :
    List RetrievedModel :=
  if (intentOperations intent).isEmpty then models
  else
    models.filter (fun model =>
      (intentOperations intent).any (fun op => strContains (upperStr model.sql) op))

/-! ## Relationship expansion

`expandRelationships` traverses the relationship graph from each seed
table, bounded by depth 2 and a shared visited set, then de-duplicates
the produced edges through a JavaScript `Map` keyed by the string
concatenation of the two table names. The recursion of `traverse` is
realised with a fuel argument that starts at 3 and decreases in lockstep
with the depth increase, so the zero-fuel branch is never reached from
`expandRelationships` (at depth 2 no further recursive call is made). -/

/-- Mutable traversal state: the visited set and the accumulated edges. -/
structure TState where
  visited : List String
  rels : List RetrievedRelationship
  deriving Repr, DecidableEq

/-- The loop body of `traverse` over the relationship entries of one
table: each entry pushes an edge, then recurses (through `next`, the
traversal at depth + 1) when the depth allows it. -/
def traverseRels (next : String → TState → TState) (depth : Nat)
    (tableName : String) : List TableRel → TState → TState
  | [], st => st
  | rel :: rest, st =>
    let st₁ : TState := ⟨st.visited, st.rels ++ [⟨tableName, rel.table, rel.join_key⟩]⟩
    let st₂ := if depth < 2 then next rel.table st₁ else st₁
    traverseRels next depth tableName rest st₂

/-- The inner `traverse` closure of `expandRelationships`. -/
def traverse (schema : FullSchema) : Nat → Nat → String → TState → TState
  | 0, _, _, st => st
  | fuel + 1, depth, tableName, st =>
    if depth > 2 ∨ tableName ∈ st.visited then st
    else
      let st₁ : TState := ⟨tableName :: st.visited, st.rels⟩
      match lookupTable schema tableName with
      | none => st₁
      | some tableSchema =>
        traverseRels (traverse schema fuel (depth + 1)) depth tableName
          tableSchema.relationships st₁

/-- The traversal over all seed tables, before de-duplication. -/
def expandRelationshipsRaw (schema : FullSchema) (tableNames : List String) : TState :=
  tableNames.foldl (fun st tableName => traverse schema 3 0 tableName st) ⟨[], []⟩

/-- De-duplication through `new Map(rels.map(r => [from + to, r]))`: keys
keep the position of their first occurrence, the value stored for a key
is the last one with that key. -/
def dedupByKey (l : List RetrievedRelationship) : List RetrievedRelationship :=
  (l.foldl (fun m r => mapSet m (r.from_table ++ r.to_table) r) []).map Prod.snd

/-- `expandRelationships`: returns `[]` when the schema field is still
null, otherwise the de-duplicated traversal result. -/
def expandRelationships (oschema : Option FullSchema) (tableNames : List String) :
    List RetrievedRelationship :=
  match oschema with
  | none => []
  | some schema => dedupByKey (expandRelationshipsRaw schema tableNames).rels

/-! ## Context rendering and token estimation -/

/-- The text block rendered for one example-query pattern. -/
def modelBlock (model : RetrievedModel) : String :=
  "**" ++ model.name ++ "** - " ++ model.description ++ "\n" ++
    "```sql\n" ++ model.sql ++ "\n```\n\n"

/-- The line rendered for one retrieved column; the description is added
only when non-empty (JavaScript truthiness) and the unit only when
present. -/
def columnLine (col : RetrievedColumn) : String :=
  "  - `" ++ col.column ++ "` (" ++ col.type ++ ")" ++
    (if col.description ≠ "" then " - " ++ col.description else "") ++
    (match col.unit with
      | some u => " [" ++ u ++ "]"
      | none => "") ++ "\n"

/-- First-occurrence de-duplication, the order of a JavaScript `Set`. -/
def dedupFirst (l : List String) : List String :=
  l.foldl (fun acc x => if x ∈ acc then acc else acc ++ [x]) []

/-- The block rendered for one table of the relevant-schema section; a
table missing from the registry contributes nothing (the `continue`). -/
def tableBlock (schema : FullSchema) (columns : List RetrievedColumn)
    (tableName : String) : String :=
  match lookupTable schema tableName with
  | none => ""
  | some ts =>
    "**" ++ tableName ++ "** - " ++ ts.description ++ "\n" ++ "Columns:\n" ++
      String.join ((columns.filter (fun c => c.table == tableName)).map columnLine) ++
      "\n"

/-- The line rendered for one relationship edge. -/
def relLine (rel : RetrievedRelationship) : String :=
  "- `" ++ rel.from_table ++ "` → `" ++ rel.to_table ++ "` on " ++
    rel.join_condition ++ "\n"

/-- `buildContextText`: header, then the three optional sections. -/
def buildContextText (schema : FullSchema) (models : List RetrievedModel)
    (columns : List RetrievedColumn) (relationships : List RetrievedRelationship) :
    String :=
  let context := "## Relevant SQL Patterns\n\n"
  let context :=
    if models.length > 0 then
      context ++ "### Examples of Similar Queries:\n\n" ++
        String.join (models.map modelBlock)
    else context
  let uniqueTables := dedupFirst (columns.map (fun c => c.table))
  let context :=
    if uniqueTables.length > 0 then
      context ++ "### Relevant Schema Tables:\n\n" ++
        String.join (uniqueTables.map (tableBlock schema columns))
    else context
  let context :=
    if relationships.length > 0 then
      context ++ "### Table Relationships:\n\n" ++
        String.join (relationships.map relLine) ++ "\n"
    else context
  context

/-- `estimateTokens`: `Math.ceil(text.length / 4)`. -/
def estimateTokens (text : String) : Nat :=
  (text.length + 3) / 4

/-! ## buildContext

The external collaborators of `buildContext` are made explicit through a
`RetrievalEnv` record: the context-cache lookup result for the query, the
(already mapped and score-sorted) outputs of the two vector searches, and
the loaded schema registry. With those fixed, `buildContext` is the pure
data flow of the source method. The trailing cache store does not affect
the returned value and the `maxTokens` parameter is not read anywhere in
the source body. -/

/-- The responses of the external collaborators for one call. -/
structure RetrievalEnv where
  cached : Option SemanticContext
  models : List RetrievedModel
  columns : List RetrievedColumn
  schema : FullSchema

/-- `buildContext(query, maxTokens)` under environment `env`. -/
def buildContext (env : RetrievalEnv) (query : String) (maxTokens : Nat) :
    SemanticContext :=
  match env.cached with
  | some cachedContext => cachedContext
  | none =>
    let intent := detectQueryIntent query
    let models := filterModelsByIntent env.models intent
    let columns := env.columns
    let tableNames := dedupFirst (columns.map (fun c => c.table))
    let relationships := expandRelationships (some env.schema) tableNames
    let contextText := buildContextText env.schema models columns relationships
    let tokenEstimate := estimateTokens contextText
    { models := models
      columns := columns
      relationships := relationships
      tables_involved := tableNames
      context_text := contextText
      token_estimate := tokenEstimate }

/-! ## Helper lemmas about buildContext -/

theorem buildContext_uncached (env : RetrievalEnv) (query : String) (b : Nat)
    (h : env.cached = none) :
    buildContext env query b =
      { models := filterModelsByIntent env.models (detectQueryIntent query)
        columns := env.columns
        relationships := expandRelationships (some env.schema)
          (dedupFirst (env.columns.map (fun c => c.table)))
        tables_involved := dedupFirst (env.columns.map (fun c => c.table))
        context_text := buildContextText env.schema
          (filterModelsByIntent env.models (detectQueryIntent query)) env.columns
          (expandRelationships (some env.schema)
            (dedupFirst (env.columns.map (fun c => c.table))))
        token_estimate := estimateTokens (buildContextText env.schema
          (filterModelsByIntent env.models (detectQueryIntent query)) env.columns
          (expandRelationships (some env.schema)
            (dedupFirst (env.columns.map (fun c => c.table))))) } := by
  simp only [buildContext, h]

/-- The fixed document header named by the spec. -/
def contextHeader : String := "## Relevant SQL Patterns"

/-- Prefix relation on strings. -/
def strStartsWith (s p : String) : Prop :=
  s.data.take p.data.length = p.data

theorem strStartsWith_append (p s : String) : strStartsWith (p ++ s) p := by
  unfold strStartsWith
  rw [String.data_append]
  exact List.take_left _ _

theorem buildContextText_headed (schema : FullSchema) (models : List RetrievedModel)
    (columns : List RetrievedColumn) (rels : List RetrievedRelationship) :
    ∃ t : String,
      buildContextText schema models columns rels = "## Relevant SQL Patterns\n\n" ++ t := by
  have base : ∃ t : String,
      ("## Relevant SQL Patterns\n\n" : String) = "## Relevant SQL Patterns\n\n" ++ t :=
    ⟨"", (String.append_empty _).symm⟩
  have hax : ∀ x y : String,
      (∃ t : String, x = "## Relevant SQL Patterns\n\n" ++ t) →
      ∃ t : String, x ++ y = "## Relevant SQL Patterns\n\n" ++ t := by
    intro x y h
    obtain ⟨t, ht⟩ := h
    exact ⟨t ++ y, by rw [ht, String.append_assoc]⟩
  have hif : ∀ (P : Prop) [Decidable P] (a b : String),
      (∃ t : String, a = "## Relevant SQL Patterns\n\n" ++ t) →
      (∃ t : String, b = "## Relevant SQL Patterns\n\n" ++ t) →
      ∃ t : String, (if P then a else b) = "## Relevant SQL Patterns\n\n" ++ t := by
    intro P _ a b ha hb
    by_cases hp : P
    · rw [if_pos hp]
      exact ha
    · rw [if_neg hp]
      exact hb
  have h1 : ∀ (P : Prop) [Decidable P] (y₁ y₂ : String),
      ∃ t : String,
        (if P then ("## Relevant SQL Patterns\n\n" ++ y₁) ++ y₂
         else "## Relevant SQL Patterns\n\n") = "## Relevant SQL Patterns\n\n" ++ t := by
    intro P _ y₁ y₂
    exact hif P _ _ (hax _ _ (hax _ _ base)) base
  simp only [buildContextText]
  apply hif
  · apply hax
    apply hax
    apply hax
    apply hif
    · apply hax
      apply hax
      apply h1
    · apply h1
  · apply hif
    · apply hax
      apply hax
      apply h1
    · apply h1

/-! ## C1 — token budget -/

/-- Bounded repetition, used to build a long concrete SQL text. -/
def repeatStr : Nat → String → String
  | 0, _ => ""
  | n + 1, s => s ++ repeatStr n s

theorem repeatStr_length (n : Nat) (s : String) :
    (repeatStr n s).length = n * s.length := by
  induction n with
  | zero => simp [repeatStr]
  | succ k ih =>
    simp only [repeatStr, String.length_append, ih, Nat.succ_mul]
    omega

/-- A concrete retrieved pattern whose SQL text is 2500 characters long. -/
def longSqlModel : RetrievedModel :=
  ⟨"m-long", "Long pattern", "demo", repeatStr 250 "0123456789", 5⟩

/-- Environment of the C1 counterexample: no cache hit, one long pattern,
no retrieved columns. -/
def envBudget : RetrievalEnv := ⟨none, [longSqlModel], [], []⟩

/-- C1 counterexample: with `tokenBudget = 600` (the default) the returned
`token_estimate` is above the budget while every retrieved entry is kept,
even though the rendering with every droppable entry removed (7 tokens)
fits the budget with room to spare; `buildContext` never drops entries to
meet the budget. -/
theorem token_budget_exceeded_cx :
    600 < (buildContext envBudget "zzz" 600).token_estimate ∧
    (buildContext envBudget "zzz" 600).models = [longSqlModel] ∧
    estimateTokens (buildContextText [] [] [] []) ≤ 600 := by
  have hkey : buildContext envBudget "zzz" 600 =
      { models := [longSqlModel], columns := [], relationships := [],
        tables_involved := [],
        context_text := buildContextText [] [longSqlModel] [] [],
        token_estimate := estimateTokens (buildContextText [] [longSqlModel] [] []) } := by
    rfl
  have htext : buildContextText [] [longSqlModel] [] [] =
      "## Relevant SQL Patterns\n\n" ++ "### Examples of Similar Queries:\n\n" ++
        String.join [modelBlock longSqlModel] := by
    rfl
  have hsql : (repeatStr 250 "0123456789").length = 2500 := by
    rw [repeatStr_length]
    rfl
  have hlen : 2500 ≤ (buildContextText [] [longSqlModel] [] []).length := by
    rw [htext]
    have hj : String.join [modelBlock longSqlModel] = "" ++ modelBlock longSqlModel := rfl
    rw [hj]
    simp only [String.length_append, modelBlock, longSqlModel]
    omega
  refine ⟨?_, ?_, ?_⟩
  · rw [hkey]
    show 600 < estimateTokens (buildContextText [] [longSqlModel] [] [])
    unfold estimateTokens
    omega
  · rw [hkey]
  · decide

/-- C1 amended: `buildContext` ignores the token budget entirely — its
result is the same for every budget value — and (when the cache misses)
`token_estimate` is always the estimate of the full rendered text, so
nothing is ever dropped to satisfy the budget. -/
theorem buildContext_budget_ignored :
    (∀ (env : RetrievalEnv) (query : String) (b₁ b₂ : Nat),
      buildContext env query b₁ = buildContext env query b₂) ∧
    (∀ (env : RetrievalEnv) (query : String) (b : Nat),
      env.cached = none →
      (buildContext env query b).token_estimate =
        estimateTokens (buildContext env query b).context_text) := by
  constructor
  · intro env query b₁ b₂
    rfl
  · intro env query b h
    rw [buildContext_uncached env query b h]

/-- Witness for the amended C1 at a concrete environment. -/
theorem buildContext_budget_ignored_witness :
    buildContext (⟨none, [], [], []⟩ : RetrievalEnv) "q" 100 =
      buildContext (⟨none, [], [], []⟩ : RetrievalEnv) "q" 999 ∧
    (buildContext (⟨none, [], [], []⟩ : RetrievalEnv) "q" 100).token_estimate =
      estimateTokens (buildContext (⟨none, [], [], []⟩ : RetrievalEnv) "q" 100).context_text :=
  ⟨buildContext_budget_ignored.1 ⟨none, [], [], []⟩ "q" 100 999,
   buildContext_budget_ignored.2 ⟨none, [], [], []⟩ "q" 100 rfl⟩

/-! ## C2 — intent filtering -/

/-- A concrete retrieved pattern whose SQL has no ranking construct. -/
def countModel : RetrievedModel :=
  ⟨"1", "Count accounts", "d", "SELECT COUNT(*) FROM accounts", 5⟩

/-- Environment of the C2 counterexample. -/
def envRank : RetrievalEnv := ⟨none, [countModel], [], []⟩

/-- C2 counterexample: the query classifies as RANK, the single retrieved
pattern contains neither ORDER BY nor LIMIT, and the filter removes every
candidate — the models list of the built context is empty even though the
vector search returned a non-empty top-K₁. -/
theorem intent_filter_empties_models_cx :
    detectQueryIntent "top performers" = QueryIntent.RANK ∧
    (buildContext envRank "top performers" 600).models = [] ∧
    envRank.models ≠ [] := by
  decide

/-- C2 amended: when the classified intent is UNKNOWN the full retrieved
list is kept unfiltered; for any other intent only patterns whose
uppercased SQL contains one of the associated operations are kept, and if
none match the models list becomes empty (there is no fallback). -/
theorem unknown_intent_keeps_all_models :
    ∀ (env : RetrievalEnv) (query : String) (b : Nat),
      env.cached = none →
      detectQueryIntent query = QueryIntent.UNKNOWN →
      (buildContext env query b).models = env.models := by
  intro env query b hc hi
  rw [buildContext_uncached env query b hc]
  show filterModelsByIntent env.models (detectQueryIntent query) = env.models
  rw [hi]
  rfl

/-- Witness for the amended C2 at a concrete environment and query. -/
theorem unknown_intent_keeps_all_models_witness :
    detectQueryIntent "list the holdings" = QueryIntent.UNKNOWN ∧
    (buildContext (⟨none, [countModel], [], []⟩ : RetrievalEnv)
      "list the holdings" 600).models = [countModel] :=
  ⟨by decide,
   unknown_intent_keeps_all_models ⟨none, [countModel], [], []⟩ "list the holdings" 600
     rfl (by decide)⟩

/-! ## C6 — empty query handling -/

/-- A concrete cached context. -/
def cachedCtx : SemanticContext := ⟨[], [], [], [], "cached context", 4⟩

/-- Environment of the C6 counterexample: the cache holds an entry for the
query. -/
def envCached : RetrievalEnv := ⟨some cachedCtx, [], [], []⟩

/-- C6 counterexample: the empty query string is not rejected — the cache
is consulted first and a cached context is returned for it, and with an
empty cache the empty query is processed like any other, producing the
header-only context. -/
theorem empty_query_not_rejected_cx :
    buildContext envCached "" 600 = cachedCtx ∧
    (buildContext (⟨none, [], [], []⟩ : RetrievalEnv) "" 600).context_text =
      "## Relevant SQL Patterns\n\n" ∧
    (buildContext (⟨none, [], [], []⟩ : RetrievalEnv) "" 600).token_estimate = 7 := by
  decide

/-- C6 amended: `buildContext` performs no validation of the query text;
for the empty string, exactly as for any other query, the cache lookup
happens first and a hit is returned unchanged. -/
theorem empty_query_cache_first :
    ∀ (env : RetrievalEnv) (c : SemanticContext) (b : Nat),
      env.cached = some c → buildContext env "" b = c := by
  intro env c b h
  simp only [buildContext, h]

/-- Witness for the amended C6 at a concrete environment. -/
theorem empty_query_cache_first_witness :
    buildContext envCached "" 123 = cachedCtx :=
  empty_query_cache_first envCached cachedCtx 123 rfl

/-! ## C10 — context text header invariant -/

/-- C10: whenever the cache misses, the returned `context_text` begins
with the fixed header, is never empty, and the token estimate is at least
one; a degraded context is detectable only through empty models/columns
lists. -/
theorem context_text_always_headed :
    ∀ (env : RetrievalEnv) (query : String) (b : Nat),
      env.cached = none →
      strStartsWith (buildContext env query b).context_text contextHeader ∧
      (buildContext env query b).context_text ≠ "" ∧
      1 ≤ (buildContext env query b).token_estimate := by
  intro env query b h
  rw [buildContext_uncached env query b h]
  obtain ⟨t, ht⟩ := buildContextText_headed env.schema
    (filterModelsByIntent env.models (detectQueryIntent query)) env.columns
    (expandRelationships (some env.schema)
      (dedupFirst (env.columns.map (fun c => c.table))))
  have hH2 : ("## Relevant SQL Patterns\n\n" : String) = contextHeader ++ "\n\n" := rfl
  refine ⟨?_, ?_, ?_⟩
  · show strStartsWith (buildContextText _ _ _ _) contextHeader
    rw [ht, hH2, String.append_assoc]
    exact strStartsWith_append _ _
  · show buildContextText _ _ _ _ ≠ ""
    rw [ht]
    intro he
    have hl := congrArg String.length he
    rw [String.length_append] at hl
    have h26 : ("## Relevant SQL Patterns\n\n" : String).length = 26 := rfl
    have h0 : ("" : String).length = 0 := rfl
    omega
  · show 1 ≤ estimateTokens (buildContextText _ _ _ _)
    rw [ht]
    unfold estimateTokens
    rw [String.length_append]
    have h26 : ("## Relevant SQL Patterns\n\n" : String).length = 26 := rfl
    omega

/-- Witness for C10 at a concrete environment. -/
theorem context_text_always_headed_witness :
    strStartsWith (buildContext (⟨none, [], [], []⟩ : RetrievalEnv) "w" 5).context_text
      contextHeader ∧
    (buildContext (⟨none, [], [], []⟩ : RetrievalEnv) "w" 5).context_text ≠ "" ∧
    1 ≤ (buildContext (⟨none, [], [], []⟩ : RetrievalEnv) "w" 5).token_estimate :=
  context_text_always_headed ⟨none, [], [], []⟩ "w" 5 rfl

/-! ## C7 and C8 — relationship expansion

Reachability in the relationship graph of a registry, with a bounded hop
count, and the soundness of the bounded traversal. -/

/-- One hop in the relationship graph: table `a` declares a relationship
entry pointing at table `b`. -/
def hasRel (schema : FullSchema) (a b : String) : Prop :=
  ∃ ts, lookupTable schema a = some ts ∧ ∃ r ∈ ts.relationships, r.table = b

/-- `ReachesWithin schema a b n`: table `b` is reachable from table `a`
in at most `n` hops. -/
inductive ReachesWithin (schema : FullSchema) : String → String → Nat → Prop where
  | refl (t : String) (n : Nat) : ReachesWithin schema t t n
  | step {a b c : String} {n : Nat} : hasRel schema a b →
      ReachesWithin schema b c n → ReachesWithin schema a c (n + 1)

theorem ReachesWithin.mono {schema : FullSchema} {a b : String} {n m : Nat}
    (h : ReachesWithin schema a b n) (hnm : n ≤ m) : ReachesWithin schema a b m := by
  induction h generalizing m with
  | refl t k => exact ReachesWithin.refl t m
  | step hr _ ih =>
    cases m with
    | zero => omega
    | succ m' => exact ReachesWithin.step hr (ih (by omega))

theorem ReachesWithin.snoc {schema : FullSchema} {a b c : String} {n : Nat}
    (h : ReachesWithin schema a b n) (hr : hasRel schema b c) :
    ReachesWithin schema a c (n + 1) := by
  induction h with
  | refl t k => exact ReachesWithin.step hr (ReachesWithin.refl c k)
  | step hr₁ _ ih => exact ReachesWithin.step hr₁ (ih hr)

/-- The depth-2 property of one produced edge: its source table is within
two hops of some seed. -/
def EdgeOk (schema : FullSchema) (seeds : List String) (e : RetrievedRelationship) :
    Prop :=
  ∃ s ∈ seeds, ReachesWithin schema s e.from_table 2

theorem traverseRels_ok (schema : FullSchema) (seeds : List String)
    (next : String → TState → TState) (depth : Nat) (tableName : String)
    (hdep : depth ≤ 2)
    (hreach : ∃ s ∈ seeds, ReachesWithin schema s tableName depth)
    (hnext : ∀ (u : String) (st : TState), depth + 1 ≤ 2 →
      (∃ s ∈ seeds, ReachesWithin schema s u (depth + 1)) →
      (∀ e ∈ st.rels, EdgeOk schema seeds e) →
      ∀ e ∈ (next u st).rels, EdgeOk schema seeds e) :
    ∀ (rels : List TableRel) (st : TState),
      (∀ r ∈ rels, hasRel schema tableName r.table) →
      (∀ e ∈ st.rels, EdgeOk schema seeds e) →
      ∀ e ∈ (traverseRels next depth tableName rels st).rels, EdgeOk schema seeds e := by
  intro rels
  induction rels with
  | nil =>
    intro st _ hst
    simpa [traverseRels] using hst
  | cons rel rest ih =>
    intro st hrels hst
    simp only [traverseRels]
    refine ih _ (fun r hr => hrels r (List.mem_cons_of_mem _ hr)) ?_
    have hst₁ : ∀ e ∈ (⟨st.visited,
        st.rels ++ [⟨tableName, rel.table, rel.join_key⟩]⟩ : TState).rels,
        EdgeOk schema seeds e := by
      intro e he
      rcases List.mem_append.1 he with hmem | hmem
      · exact hst e hmem
      · have heq : e = ⟨tableName, rel.table, rel.join_key⟩ := by simpa using hmem
        subst heq
        obtain ⟨s, hs, hr⟩ := hreach
        exact ⟨s, hs, hr.mono hdep⟩
    by_cases hd : depth < 2
    · rw [if_pos hd]
      refine hnext _ _ (by omega) ?_ hst₁
      obtain ⟨s, hs, hr⟩ := hreach
      exact ⟨s, hs, hr.snoc (hrels rel (List.mem_cons_self _ _))⟩
    · rw [if_neg hd]
      exact hst₁

theorem traverse_ok (schema : FullSchema) (seeds : List String) :
    ∀ (fuel depth : Nat) (tableName : String) (st : TState),
      depth ≤ 2 →
      (∃ s ∈ seeds, ReachesWithin schema s tableName depth) →
      (∀ e ∈ st.rels, EdgeOk schema seeds e) →
      ∀ e ∈ (traverse schema fuel depth tableName st).rels, EdgeOk schema seeds e := by
  intro fuel
  induction fuel with
  | zero =>
    intro depth tn st _ _ hst
    simpa [traverse] using hst
  | succ f ih =>
    intro depth tn st hdep hreach hst
    simp only [traverse]
    by_cases hguard : depth > 2 ∨ tn ∈ st.visited
    · rw [if_pos hguard]
      exact hst
    · rw [if_neg hguard]
      cases hlook : lookupTable schema tn with
      | none =>
        exact hst
      | some ts =>
        show ∀ e ∈ (traverseRels (traverse schema f (depth + 1)) depth tn
          ts.relationships ⟨tn :: st.visited, st.rels⟩).rels, EdgeOk schema seeds e
        refine traverseRels_ok schema seeds (traverse schema f (depth + 1)) depth tn
          hdep hreach ?_ ts.relationships _ ?_ ?_
        · intro u st' hd2 hreach' hst'
          exact ih (depth + 1) u st' hd2 hreach' hst'
        · intro r hr
          exact ⟨ts, hlook, r, hr, rfl⟩
        · exact hst

theorem expandRelationshipsRaw_ok (schema : FullSchema) (tableNames : List String) :
    ∀ e ∈ (expandRelationshipsRaw schema tableNames).rels,
      EdgeOk schema tableNames e := by
  unfold expandRelationshipsRaw
  suffices h : ∀ (l : List String) (st : TState),
      (∀ t ∈ l, t ∈ tableNames) →
      (∀ e ∈ st.rels, EdgeOk schema tableNames e) →
      ∀ e ∈ (l.foldl (fun st tn => traverse schema 3 0 tn st) st).rels,
        EdgeOk schema tableNames e by
    exact h tableNames ⟨[], []⟩ (fun t ht => ht) (by simp)
  intro l
  induction l with
  | nil =>
    intro st _ hst
    simpa using hst
  | cons t rest ih =>
    intro st hsub hst
    simp only [List.foldl]
    refine ih _ (fun x hx => hsub x (List.mem_cons_of_mem _ hx)) ?_
    exact traverse_ok schema tableNames 3 0 t st (by omega)
      ⟨t, hsub t (List.mem_cons_self _ _), ReachesWithin.refl t 0⟩ hst

theorem mapSet_snd_subset {V : Type} (m : List (String × V)) (k : String) (v : V) :
    ∀ x ∈ (mapSet m k v).map Prod.snd, x ∈ m.map Prod.snd ∨ x = v := by
  induction m with
  | nil =>
    intro x hx
    simp only [mapSet, List.map_cons, List.map_nil, List.mem_singleton] at hx
    exact Or.inr hx
  | cons hd tl ih =>
    obtain ⟨k₁, v₁⟩ := hd
    intro x hx
    by_cases h : k₁ = k
    · simp only [mapSet, if_pos h, List.map_cons, List.mem_cons] at hx
      rcases hx with hx | hx
      · exact Or.inr hx
      · exact Or.inl (by simp [List.mem_cons]; right; simpa using hx)
    · simp only [mapSet, if_neg h, List.map_cons, List.mem_cons] at hx
      rcases hx with hx | hx
      · exact Or.inl (by simp [hx])
      · rcases ih x hx with hx' | hx'
        · exact Or.inl (by simp [List.mem_cons]; right; simpa using hx')
        · exact Or.inr hx'

theorem dedupByKey_subset (l : List RetrievedRelationship) :
    ∀ e ∈ dedupByKey l, e ∈ l := by
  unfold dedupByKey
  suffices h : ∀ (rest : List RetrievedRelationship)
      (m : List (String × RetrievedRelationship)),
      (∀ x ∈ m.map Prod.snd, x ∈ l) →
      (∀ x ∈ rest, x ∈ l) →
      ∀ e ∈ (rest.foldl
        (fun m r => mapSet m (r.from_table ++ r.to_table) r) m).map Prod.snd,
        e ∈ l by
    exact h l [] (by simp) (fun x hx => hx)
  intro rest
  induction rest with
  | nil =>
    intro m hm _
    simpa using hm
  | cons r tail ih =>
    intro m hm hrest
    simp only [List.foldl]
    refine ih _ ?_ (fun x hx => hrest x (List.mem_cons_of_mem _ hx))
    intro x hx
    rcases mapSet_snd_subset m (r.from_table ++ r.to_table) r x hx with hx' | hx'
    · exact hm x hx'
    · exact hx' ▸ hrest r (List.mem_cons_self _ _)

/-- C7: every edge returned by `expandRelationships` starts at a table
whose traversal distance from some seed table is at most 2; tables deeper
in a foreign-key chain never contribute edges. -/
theorem expansion_depth_bound :
    ∀ (schema : FullSchema) (tableNames : List String) (e : RetrievedRelationship),
      e ∈ expandRelationships (some schema) tableNames →
      ∃ s ∈ tableNames, ReachesWithin schema s e.from_table 2 := by
  intro schema tns e he
  unfold expandRelationships at he
  exact expandRelationshipsRaw_ok schema tns e (dedupByKey_subset _ e he)

/-- A five-table chain registry used to exercise the depth bound. -/
def chainSchema : FullSchema :=
  [("a", ⟨"a", "t1", [], [⟨"b", "a_id:b_id"⟩], []⟩),
   ("b", ⟨"b", "t2", [], [⟨"c", "b_id:c_id"⟩], []⟩),
   ("c", ⟨"c", "t3", [], [⟨"d", "c_id:d_id"⟩], []⟩),
   ("d", ⟨"d", "t4", [], [⟨"e", "d_id:e_id"⟩], []⟩),
   ("e", ⟨"e", "t5", [], [], []⟩)]

/-- Witness for C7: in the five-table chain, seeded at `a`, the edge out
of the depth-2 table `c` is returned and its source is within two hops of
the seed. -/
theorem expansion_depth_bound_witness :
    ∃ s ∈ ["a"], ReachesWithin chainSchema s
      (RetrievedRelationship.mk "c" "d" "c_id:d_id").from_table 2 :=
  expansion_depth_bound chainSchema ["a"] ⟨"c", "d", "c_id:d_id"⟩ (by decide)

/-! ## C8 — de-duplication of expanded edges -/

/-- A registry in which two distinct (from, to) pairs have the same
string concatenation. -/
def collideSchema : FullSchema :=
  [("a", ⟨"a", "seed one", [], [⟨"bc", "x:y"⟩], []⟩),
   ("ab", ⟨"ab", "seed two", [], [⟨"c", "u:v"⟩], []⟩)]

/-- C8 counterexample: the traversal produces two edges with distinct
(from, to) pairs, `("a","bc")` and `("ab","c")`, but their concatenation
keys coincide, so de-duplication keeps only the last one — two edges with
differing pairs are not both retained. -/
theorem pair_dedup_collision_cx :
    (expandRelationshipsRaw collideSchema ["a", "ab"]).rels =
      [⟨"a", "bc", "x:y"⟩, ⟨"ab", "c", "u:v"⟩] ∧
    expandRelationships (some collideSchema) ["a", "ab"] = [⟨"ab", "c", "u:v"⟩] ∧
    (⟨"a", "bc", "x:y"⟩ : RetrievedRelationship) ∉
      expandRelationships (some collideSchema) ["a", "ab"] ∧
    (("a" : String), ("bc" : String)) ≠ (("ab" : String), ("c" : String)) := by
  decide

theorem mapSet_keys_subset {V : Type} (m : List (String × V)) (k : String) (v : V) :
    ∀ x ∈ (mapSet m k v).map Prod.fst, x ∈ m.map Prod.fst ∨ x = k := by
  induction m with
  | nil =>
    intro x hx
    simp only [mapSet, List.map_cons, List.map_nil, List.mem_singleton] at hx
    exact Or.inr hx
  | cons hd tl ih =>
    obtain ⟨k₁, v₁⟩ := hd
    intro x hx
    by_cases h : k₁ = k
    · simp only [mapSet, if_pos h, List.map_cons, List.mem_cons] at hx
      rcases hx with hx | hx
      · exact Or.inr hx
      · exact Or.inl (by simp [List.mem_cons]; right; simpa using hx)
    · simp only [mapSet, if_neg h, List.map_cons, List.mem_cons] at hx
      rcases hx with hx | hx
      · exact Or.inl (by simp [hx])
      · rcases ih x hx with hx' | hx'
        · exact Or.inl (by simp [List.mem_cons]; right; simpa using hx')
        · exact Or.inr hx'

theorem mapSet_keys_nodup {V : Type} (m : List (String × V)) (k : String) (v : V)
    (h : (m.map Prod.fst).Nodup) : ((mapSet m k v).map Prod.fst).Nodup := by
  induction m with
  | nil => simp [mapSet]
  | cons hd tl ih =>
    obtain ⟨k₁, v₁⟩ := hd
    simp only [List.map_cons, List.nodup_cons] at h
    by_cases hk : k₁ = k
    · subst hk
      simp only [mapSet, if_true]
      simp only [List.map_cons, List.nodup_cons]
      exact ⟨h.1, h.2⟩
    · simp only [mapSet, if_neg hk, List.map_cons, List.nodup_cons]
      constructor
      · intro hmem
        rcases mapSet_keys_subset tl k v k₁ hmem with hx | hx
        · exact h.1 hx
        · exact hk hx
      · exact ih h.2

theorem mapSet_entry_key {V : Type} (keyOf : V → String) (m : List (String × V))
    (k : String) (v : V) (hm : ∀ p ∈ m, p.1 = keyOf p.2) (hv : k = keyOf v) :
    ∀ p ∈ mapSet m k v, p.1 = keyOf p.2 := by
  induction m with
  | nil =>
    intro p hp
    simp only [mapSet, List.mem_singleton] at hp
    subst hp
    exact hv
  | cons hd tl ih =>
    obtain ⟨k₁, v₁⟩ := hd
    intro p hp
    by_cases h : k₁ = k
    · simp only [mapSet, if_pos h, List.mem_cons] at hp
      rcases hp with hp | hp
      · subst hp
        exact hv
      · exact hm p (List.mem_cons_of_mem _ hp)
    · simp only [mapSet, if_neg h, List.mem_cons] at hp
      rcases hp with hp | hp
      · subst hp
        exact hm ⟨k₁, v₁⟩ (List.mem_cons_self _ _)
      · exact ih (fun q hq => hm q (List.mem_cons_of_mem _ hq)) p hp

theorem eq_of_keys_nodup {V : Type} :
    ∀ (m : List (String × V)), (m.map Prod.fst).Nodup →
      ∀ p₁ ∈ m, ∀ p₂ ∈ m, p₁.1 = p₂.1 → p₁ = p₂ := by
  intro m
  induction m with
  | nil =>
    intro _ p₁ hp₁
    simp at hp₁
  | cons hd tl ih =>
    intro hnd p₁ hp₁ p₂ hp₂ hkey
    simp only [List.map_cons, List.nodup_cons] at hnd
    rcases List.mem_cons.1 hp₁ with h₁ | h₁ <;> rcases List.mem_cons.1 hp₂ with h₂ | h₂
    · rw [h₁, h₂]
    · exfalso
      apply hnd.1
      rw [h₁] at hkey
      rw [hkey]
      exact List.mem_map_of_mem Prod.fst h₂
    · exfalso
      apply hnd.1
      rw [h₂] at hkey
      rw [← hkey]
      exact List.mem_map_of_mem Prod.fst h₁
    · exact ih hnd.2 p₁ h₁ p₂ h₂ hkey

theorem dedup_fold_invariant (rest : List RetrievedRelationship) :
    ∀ (m : List (String × RetrievedRelationship)),
      (m.map Prod.fst).Nodup →
      (∀ p ∈ m, p.1 = p.2.from_table ++ p.2.to_table) →
      (((rest.foldl (fun m r => mapSet m (r.from_table ++ r.to_table) r) m).map
          Prod.fst).Nodup ∧
        (∀ p ∈ rest.foldl (fun m r => mapSet m (r.from_table ++ r.to_table) r) m,
          p.1 = p.2.from_table ++ p.2.to_table)) := by
  induction rest with
  | nil =>
    intro m hnd hkeys
    exact ⟨hnd, hkeys⟩
  | cons r tail ih =>
    intro m hnd hkeys
    simp only [List.foldl]
    exact ih _ (mapSet_keys_nodup m _ r hnd)
      (mapSet_entry_key (fun v => v.from_table ++ v.to_table) m _ r hkeys rfl)

/-- C8 amended: the expansion result is de-duplicated by the concatenated
key `from_table ++ to_table`: any two returned edges whose concatenated
keys agree are the same edge (in particular there is at most one edge per
ordered (from, to) pair). Edges whose pairs differ are both retained only
when their concatenations differ; the counterexample shows a collision of
distinct pairs being merged. -/
theorem expansion_dedup_by_concat :
    ∀ (schema : FullSchema) (tableNames : List String)
      (e₁ e₂ : RetrievedRelationship),
      e₁ ∈ expandRelationships (some schema) tableNames →
      e₂ ∈ expandRelationships (some schema) tableNames →
      e₁.from_table ++ e₁.to_table = e₂.from_table ++ e₂.to_table →
      e₁ = e₂ := by
  intro schema tns e₁ e₂ h₁ h₂ hkey
  unfold expandRelationships dedupByKey at h₁ h₂
  obtain ⟨p₁, hp₁, hpe₁⟩ := List.mem_map.1 h₁
  obtain ⟨p₂, hp₂, hpe₂⟩ := List.mem_map.1 h₂
  have hinv := dedup_fold_invariant (expandRelationshipsRaw schema tns).rels []
    (by simp) (by simp)
  have hk₁ : p₁.1 = p₁.2.from_table ++ p₁.2.to_table := hinv.2 p₁ hp₁
  have hk₂ : p₂.1 = p₂.2.from_table ++ p₂.2.to_table := hinv.2 p₂ hp₂
  have hpp : p₁ = p₂ := by
    apply eq_of_keys_nodup _ hinv.1 p₁ hp₁ p₂ hp₂
    rw [hk₁, hk₂, hpe₁, hpe₂, hkey]
  rw [← hpe₁, ← hpe₂, hpp]

/-- Witness for the amended C8 at a concrete registry: the two hypotheses
are discharged on the first returned edge of the chain registry. -/
theorem expansion_dedup_by_concat_witness :
    (⟨"a", "b", "a_id:b_id"⟩ : RetrievedRelationship) =
      (⟨"a", "b", "a_id:b_id"⟩ : RetrievedRelationship) :=
  expansion_dedup_by_concat chainSchema ["a"] ⟨"a", "b", "a_id:b_id"⟩
    ⟨"a", "b", "a_id:b_id"⟩ (by decide) (by decide) rfl

/-! ## The schema registry catalog

Transcription of the static catalog of the schema-registry module used by
the SQL validator (the finance-management variant with `securities` and
`accounts`). `colP` builds a plain column, `colA` a column carrying an
`aggregatable` tag. -/

/-- A column with type and description only. -/
def colP (ty desc : String) : ColumnInfo :=
  ⟨ty, some desc, none, none, none⟩

/-- A column with type, description and an `aggregatable` tag. -/
def colA (ty desc agg : String) : ColumnInfo :=
  ⟨ty, some desc, none, none, some agg⟩

def usersTable : TableSchema :=
  { table_name := "users"
    description := "User profiles and authentication data"
    columns :=
      [("id", colP "uuid" "Primary key"),
       ("email", colA "text" "User email address" "false"),
       ("name", colA "text" "User full name" "false"),
       ("phone", colA "text" "User phone number" "false"),
       ("country", colA "text" "User country" "false"),
       ("role", colA "varchar" "User role" "false"),
       ("created_at", colP "timestamp" "Account creation timestamp"),
       ("updated_at", colP "timestamp" "Last update timestamp")]
    relationships :=
      [⟨"accounts", "id:user_id"⟩, ⟨"budgets", "id:user_id"⟩,
       ⟨"financial_goals", "id:user_id"⟩, ⟨"expense_categories", "id:user_id"⟩]
    sensitive_fields := ["id", "email", "phone"] }

def accountsTable : TableSchema :=
  { table_name := "accounts"
    description := "Bank and investment accounts"
    columns :=
      [("id", colP "uuid" "Primary key"),
       ("user_id", colP "uuid" "Reference to user"),
       ("account_type", colA "text" "Type of account (checking, savings, investment)" "false"),
       ("account_name", colA "text" "Name of the account" "false"),
       ("balance", colA "numeric" "Current account balance" "SUM,AVG,MAX,MIN"),
       ("currency", colA "text" "Currency code (USD, EUR, etc)" "false"),
       ("account_number", colA "text" "Account number" "false"),
       ("institution_name", colA "text" "Name of financial institution" "false"),
       ("created_at", colP "timestamp" "Account creation timestamp"),
       ("updated_at", colP "timestamp" "Last update timestamp")]
    relationships :=
      [⟨"users", "user_id:id"⟩, ⟨"transactions", "id:account_id"⟩,
       ⟨"portfolio_holdings", "id:account_id"⟩, ⟨"dividends", "id:account_id"⟩]
    sensitive_fields := ["id", "user_id", "account_number"] }

def transactionsTable : TableSchema :=
  { table_name := "transactions"
    description := "Financial transactions including purchases, sales, and transfers"
    columns :=
      [("id", colP "uuid" "Primary key"),
       ("account_id", colP "uuid" "Reference to account"),
       ("security_id", colP "uuid" "Reference to security if investment transaction"),
       ("transaction_type", colA "text" "Type of transaction (buy, sell, transfer, deposit, withdrawal)" "false"),
       ("amount", colA "numeric" "Transaction amount" "SUM,AVG,MAX,MIN"),
       ("quantity", colA "numeric" "Quantity for securities transactions" "SUM"),
       ("price_per_unit", colA "numeric" "Price per unit for securities" "AVG"),
       ("transaction_date", colP "date" "Date of transaction"),
       ("description", colA "text" "Transaction description" "false"),
       ("category", colA "text" "Transaction category" "false"),
       ("merchant", colA "text" "Merchant name if applicable" "false"),
       ("status", colA "text" "Transaction status (pending, completed, failed)" "false"),
       ("created_at", colP "timestamp" "Record creation timestamp")]
    relationships :=
      [⟨"accounts", "account_id:id"⟩, ⟨"securities", "security_id:id"⟩]
    sensitive_fields := ["id", "account_id"] }

def securitiesTable : TableSchema :=
  { table_name := "securities"
    description := "Stocks, bonds, mutual funds, and other investment securities"
    columns :=
      [("id", colP "uuid" "Primary key"),
       ("ticker", colA "text" "Security ticker symbol" "false"),
       ("name", colA "text" "Security name" "false"),
       ("security_type", colA "text" "Type of security (stock, bond, etf, mutual fund)" "false"),
       ("sector", colA "text" "Industry sector" "false"),
       ("industry", colA "text" "Industry classification" "false"),
       ("market_cap", colA "numeric" "Market capitalization" "SUM,AVG,MAX,MIN"),
       ("description", colA "text" "Security description" "false"),
       ("created_at", colP "timestamp" "Record creation timestamp")]
    relationships :=
      [⟨"portfolio_holdings", "id:security_id"⟩, ⟨"transactions", "id:security_id"⟩,
       ⟨"price_history", "id:security_id"⟩, ⟨"dividends", "id:security_id"⟩]
    sensitive_fields := ["id"] }

def portfolioHoldingsTable : TableSchema :=
  { table_name := "portfolio_holdings"
    description := "Current portfolio holdings of users"
    columns :=
      [("id", colP "uuid" "Primary key"),
       ("account_id", colP "uuid" "Reference to account"),
       ("security_id", colP "uuid" "Reference to security"),
       ("quantity", colA "numeric" "Number of shares held" "SUM"),
       ("average_cost", colA "numeric" "Average cost basis per share" "AVG"),
       ("current_price", colA "numeric" "Current price per share" "AVG"),
       ("market_value", colA "numeric" "Total market value of holding" "SUM,AVG"),
       ("acquisition_date", colP "date" "Date of initial purchase"),
       ("created_at", colP "timestamp" "Record creation timestamp"),
       ("updated_at", colP "timestamp" "Last update timestamp")]
    relationships :=
      [⟨"accounts", "account_id:id"⟩, ⟨"securities", "security_id:id"⟩]
    sensitive_fields := ["id", "account_id"] }

def priceHistoryTable : TableSchema :=
  { table_name := "price_history"
    description := "Historical stock price data"
    columns :=
      [("id", colP "uuid" "Primary key"),
       ("security_id", colP "uuid" "Reference to security"),
       ("history_date", colP "date" "Date of price data"),
       ("open_price", colA "numeric" "Opening price" "AVG"),
       ("close_price", colA "numeric" "Closing price" "AVG"),
       ("high_price", colA "numeric" "High price for the day" "MAX"),
       ("low_price", colA "numeric" "Low price for the day" "MIN"),
       ("volume", colA "bigint" "Trading volume" "SUM,AVG"),
       ("created_at", colP "timestamp" "Record creation timestamp")]
    relationships := [⟨"securities", "security_id:id"⟩]
    sensitive_fields := ["id"] }

def dividendsTable : TableSchema :=
  { table_name := "dividends"
    description := "Dividend payments from securities"
    columns :=
      [("id", colP "uuid" "Primary key"),
       ("security_id", colP "uuid" "Reference to security"),
       ("account_id", colP "uuid" "Reference to account"),
       ("ex_date", colP "date" "Ex-dividend date"),
       ("record_date", colP "date" "Record date for dividend eligibility"),
       ("payment_date", colP "date" "Date dividend was paid"),
       ("amount_per_share", colA "numeric" "Dividend amount per share" "AVG"),
       ("total_amount", colA "numeric" "Total dividend amount received" "SUM"),
       ("created_at", colP "timestamp" "Record creation timestamp")]
    relationships :=
      [⟨"securities", "security_id:id"⟩, ⟨"accounts", "account_id:id"⟩]
    sensitive_fields := ["id"] }

def budgetsTable : TableSchema :=
  { table_name := "budgets"
    description := "User budgets for expense categories"
    columns :=
      [("id", colP "uuid" "Primary key"),
       ("user_id", colP "uuid" "Reference to user"),
       ("category", colA "text" "Budget category" "false"),
       ("limit_amount", colA "numeric" "Budget limit amount" "SUM"),
       ("spent_amount", colA "numeric" "Amount spent so far" "SUM"),
       ("budget_month", colA "integer" "Budget month (1-12)" "false"),
       ("budget_year", colA "integer" "Budget year" "false"),
       ("created_at", colP "timestamp" "Record creation timestamp"),
       ("updated_at", colP "timestamp" "Last update timestamp")]
    relationships := [⟨"users", "user_id:id"⟩]
    sensitive_fields := ["id", "user_id"] }

def expenseCategoriesTable : TableSchema :=
  { table_name := "expense_categories"
    description := "Custom expense categories for users"
    columns :=
      [("id", colP "uuid" "Primary key"),
       ("user_id", colP "uuid" "Reference to user"),
       ("category_name", colA "text" "Category name" "false"),
       ("color", colA "text" "Display color for category" "false"),
       ("icon", colA "text" "Icon identifier" "false"),
       ("description", colA "text" "Category description" "false"),
       ("created_at", colP "timestamp" "Record creation timestamp")]
    relationships := [⟨"users", "user_id:id"⟩]
    sensitive_fields := ["id", "user_id"] }

def financialGoalsTable : TableSchema :=
  { table_name := "financial_goals"
    description := "Financial goals and targets for users"
    columns :=
      [("id", colP "uuid" "Primary key"),
       ("user_id", colP "uuid" "Reference to user"),
       ("goal_name", colA "text" "Name of the financial goal" "false"),
       ("goal_type", colA "text" "Type of goal (savings, investment, debt payoff)" "false"),
       ("target_amount", colA "numeric" "Target amount to achieve" "SUM"),
       ("current_amount", colA "numeric" "Current progress towards goal" "SUM"),
       ("target_date", colP "date" "Target date to achieve goal"),
       ("priority", colA "text" "Priority level (low, medium, high)" "false"),
       ("status", colA "text" "Goal status (active, completed, paused)" "false"),
       ("created_at", colP "timestamp" "Record creation timestamp"),
       ("updated_at", colP "timestamp" "Last update timestamp")]
    relationships := [⟨"users", "user_id:id"⟩]
    sensitive_fields := ["id", "user_id"] }

def schemaRegistryTable : TableSchema :=
  { table_name := "schema_registry"
    description := "Registry of queryable schemas and metadata"
    columns :=
      [("id", colP "uuid" "Primary key"),
       ("table_name", colA "text" "Table name" "false"),
       ("description", colA "text" "Table description" "false"),
       ("col_defs", colA "jsonb" "Column definitions as JSON" "false"),
       ("rel_defs", colA "jsonb" "Relationship definitions as JSON" "false"),
       ("sens_fields", colA "array" "Array of sensitive field names" "false"),
       ("is_queryable", colA "boolean" "Whether table is queryable by agents" "false"),
       ("created_at", colP "timestamp" "Record creation timestamp"),
       ("updated_at", colP "timestamp" "Last update timestamp")]
    relationships := []
    sensitive_fields := ["id"] }

/-- The loaded registry, in catalog order (`loadSchemaRegistry`). -/
def financeSchema : FullSchema :=
  [("users", usersTable),
   ("accounts", accountsTable),
   ("transactions", transactionsTable),
   ("securities", securitiesTable),
   ("portfolio_holdings", portfolioHoldingsTable),
   ("price_history", priceHistoryTable),
   ("dividends", dividendsTable),
   ("budgets", budgetsTable),
   ("expense_categories", expenseCategoriesTable),
   ("financial_goals", financialGoalsTable),
   ("schema_registry", schemaRegistryTable)]

/-! ## SQL structural extraction

The regex based extraction of the query-planner module, re-expressed as
character scanners with the same matching semantics: scans advance one
character at a time, resume after a match at its end, keyword comparisons
are case-insensitive where the regex carries the `i` flag, and greedy or
lazy sub-matches are resolved exactly as the regex engine would. -/

/-- Maximal `\w+` run at the head. -/
def takeWord (l : List Char) : List Char :=
  l.takeWhile (fun c => isWordChar c)

/-- Maximal `\s*` run at the head. -/
def takeSpace (l : List Char) : List Char :=
  l.takeWhile (fun c => isSpaceChar c)

/-- Skip the maximal `\s*` run at the head. -/
def dropSpace (l : List Char) : List Char :=
  l.dropWhile (fun c => isSpaceChar c)

/-- A table reference extracted from FROM/JOIN/INTO: name and the
declared alias when one was written. The alias is recorded by the
extraction and never consulted afterwards by the validator. -/
structure TableReference where
  name : String
  «alias» : Option String
  deriving Repr, DecidableEq

/-- Anchored match of `KW\s+(\w+)\s*(?:AS\s+(\w+))?` (case-insensitive),
returning the reference and the remainder after the match. -/
def matchKwTable (kw : List Char) (l : List Char) :
    Option (TableReference × List Char) :=
  if ciStarts kw l then
    let r₁ := l.drop kw.length
    let ws := takeSpace r₁
    if ws.isEmpty then none
    else
      let r₂ := r₁.drop ws.length
      let name := takeWord r₂
      if name.isEmpty then none
      else
        let r₃ := r₂.drop name.length
        let ws₂ := takeSpace r₃
        let r₄ := r₃.drop ws₂.length
        if ciStarts "AS".data r₄ then
          let r₅ := r₄.drop 2
          let ws₃ := takeSpace r₅
          if ws₃.isEmpty then some (⟨⟨name⟩, none⟩, r₄)
          else
            let r₆ := r₅.drop ws₃.length
            let al := takeWord r₆
            if al.isEmpty then some (⟨⟨name⟩, none⟩, r₄)
            else some (⟨⟨name⟩, some ⟨al⟩⟩, r₆.drop al.length)
        else some (⟨⟨name⟩, none⟩, r₄)
  else none

/-- Anchored match of `INTO\s+(\w+)` (case-insensitive). -/
def matchIntoTable (l : List Char) : Option (TableReference × List Char) :=
  if ciStarts "INTO".data l then
    let r₁ := l.drop 4
    let ws := takeSpace r₁
    if ws.isEmpty then none
    else
      let r₂ := r₁.drop ws.length
      let name := takeWord r₂
      if name.isEmpty then none
      else some (⟨⟨name⟩, none⟩, r₂.drop name.length)
  else none

/-- Global scan of a regex: try the anchored matcher at each position,
resume after each match (fuel bounds the number of scan steps; each step
consumes at least one character, so `length + 1` fuel is enough). -/
def scanWith {A : Type} (m : List Char → Option (A × List Char)) :
    Nat → List Char → List A
  | 0, _ => []
  | _ + 1, [] => []
  | fuel + 1, l@(_ :: rest) =>
    match m l with
    | some (a, remainder) => a :: scanWith m fuel remainder
    | none => scanWith m fuel rest

/-- `extractTableReferences`: all FROM matches, then all JOIN matches,
then all INTO matches. -/
def extractTableReferences (sql : String) : List TableReference :=
  let cs := sql.data
  let fuel := cs.length + 1
  scanWith (matchKwTable "FROM".data) fuel cs ++
    scanWith (matchKwTable "JOIN".data) fuel cs ++
    scanWith matchIntoTable fuel cs

/-- A select-list column reference: optional qualifier, column name, and
the aggregation function when the entry was a recognised call. -/
structure ColumnReference where
  table : String
  column : String
  aggregationFunction : Option String
  deriving Repr, DecidableEq

/-- The alternation `(?:\s+FROM|\s*$)` that ends the lazy select-list
capture. -/
def selectTailOk (tail : List Char) : Bool :=
  (let ws := takeSpace tail
   !ws.isEmpty && ciStarts "FROM".data (tail.drop ws.length)) ||
    tail.all (fun c => isSpaceChar c)

/-- Lazy `(.+?)`: the shortest non-empty prefix of `body` whose remainder
satisfies the tail alternation. -/
def findCapture (body : List Char) : Option (List Char) :=
  (List.range body.length).findSome? (fun i =>
    let capLen := i + 1
    if selectTailOk (body.drop capLen) then some (body.take capLen) else none)

/-- Anchored match of `SELECT\s+(.+?)(?:\s+FROM|\s*$)`: greedy `\s+`
backtracks from the maximal whitespace run down to one character. -/
def matchSelectAt (l : List Char) : Option (List Char) :=
  if ciStarts "SELECT".data l then
    let r₁ := l.drop 6
    let wsMax := takeSpace r₁
    if wsMax.isEmpty then none
    else
      (List.range wsMax.length).findSome? (fun j =>
        let wsLen := wsMax.length - j
        findCapture (r₁.drop wsLen))
  else none

/-- First match of the select-list regex anywhere in the text. -/
def extractSelectPart : Nat → List Char → Option (List Char)
  | 0, _ => none
  | _ + 1, [] => none
  | fuel + 1, l@(_ :: rest) =>
    match matchSelectAt l with
    | some cap => some cap
    | none => extractSelectPart fuel rest

/-- The negative lookahead of `,(?![^()]*\))`: the comma stays literal
exactly when the next parenthesis character after it is a closing one. -/
def commaIsLiteral (rest : List Char) : Bool :=
  (rest.dropWhile (fun c => !(c == '(' || c == ')'))).head? == some ')'

/-- Split the select list on commas that are not protected by the
lookahead. -/
def splitCols : List Char → List Char → List (List Char)
  | [], acc => [acc.reverse]
  | c :: rest, acc =>
    if c == ',' && !commaIsLiteral rest then
      acc.reverse :: splitCols rest []
    else
      splitCols rest (c :: acc)

/-- Both-ends whitespace trim. -/
def trimChars (l : List Char) : List Char :=
  ((l.dropWhile (fun c => isSpaceChar c)).reverse.dropWhile
    (fun c => isSpaceChar c)).reverse

/-- The aggregation function alternatives, in the order of the regex
alternation, paired with the canonical uppercased name the source stores. -/
def aggFns : List (List Char × String) :=
  [("COUNT".data, "COUNT"), ("SUM".data, "SUM"), ("AVG".data, "AVG"),
   ("MIN".data, "MIN"), ("MAX".data, "MAX")]

/-- The argument part `(?:(\w+)\.)?(\w+|\*)\s*\)` of the aggregation
regex, with the backtracking of the optional qualifier. -/
def matchAggTarget (l : List Char) : Option (String × String) :=
  let run := takeWord l
  let qualified :=
    if !run.isEmpty && (l.drop run.length).head? == some '.' then
      let afterDot := l.drop (run.length + 1)
      let col := takeWord afterDot
      if !col.isEmpty then
        if (dropSpace (afterDot.drop col.length)).head? == some ')' then
          some ((⟨run⟩ : String), (⟨col⟩ : String))
        else none
      else if afterDot.head? == some '*' then
        if (dropSpace afterDot.tail).head? == some ')' then
          some ((⟨run⟩ : String), "*")
        else none
      else none
    else none
  match qualified with
  | some r => some r
  | none =>
    if !run.isEmpty then
      if (dropSpace (l.drop run.length)).head? == some ')' then
        some ("", (⟨run⟩ : String))
      else none
    else if l.head? == some '*' then
      if (dropSpace l.tail).head? == some ')' then some ("", "*") else none
    else none

/-- Anchored match of the aggregation call regex
`(COUNT|SUM|AVG|MIN|MAX)\s*\(\s*(?:(\w+)\.)?(\w+|\*)\s*\)` (`i` flag). -/
def matchAggAt (l : List Char) : Option ColumnReference :=
  aggFns.findSome? (fun p =>
    if ciStarts p.1 l then
      let r₁ := dropSpace (l.drop p.1.length)
      if r₁.head? == some '(' then
        match matchAggTarget (dropSpace r₁.tail) with
        | some tc => some ⟨tc.1, tc.2, some p.2⟩
        | none => none
      else none
    else none)

/-- First aggregation-call match anywhere in one select-list entry. -/
def findAgg : Nat → List Char → Option ColumnReference
  | 0, _ => none
  | _ + 1, [] => none
  | fuel + 1, l@(_ :: rest) =>
    match matchAggAt l with
    | some cr => some cr
    | none => findAgg fuel rest

/-- First match of the plain column regex `(?:(\w+)\.)?(\w+)`. -/
def findPlainCol : List Char → Option (String × String)
  | [] => none
  | l@(c :: rest) =>
    if isWordChar c then
      let run := takeWord l
      let afterRun := l.drop run.length
      if afterRun.head? == some '.' then
        let col := takeWord (afterRun.drop 1)
        if !col.isEmpty then some ((⟨run⟩ : String), (⟨col⟩ : String))
        else some ("", (⟨run⟩ : String))
      else some ("", (⟨run⟩ : String))
    else findPlainCol rest

/-- `extractColumnReferences`: select-list capture, comma split, then per
entry either an aggregation call or a plain column (a bare `*` or an
empty entry contributes nothing). -/
def extractColumnReferences (sql : String) : List ColumnReference :=
  match extractSelectPart (sql.data.length + 1) sql.data with
  | none => []
  | some selectPart =>
    (splitCols selectPart []).filterMap (fun part =>
      let trimmed := trimChars part
      match findAgg (trimmed.length + 1) trimmed with
      | some cr => some cr
      | none =>
        match findPlainCol trimmed with
        | some tc =>
          if tc.2 ≠ "" ∧ tc.2 ≠ "*" then some ⟨tc.1, tc.2, none⟩ else none
        | none => none)

/-! ## The SQL validator -/

/-- The result record of `validateQuery` (`ValidationResult`). -/
structure ValidationResult where
  valid : Bool
  errors : List String
  warnings : List String
  suggestions : List String
  deriving Repr, DecidableEq

/-- A single-quote character, used to build the exact source messages
without quote characters in the development text. -/
def sq : String := ⟨[Char.ofNat 39]⟩

/-- Wrap a string in single quotes. -/
def quoted (s : String) : String := sq ++ s ++ sq

/-- Whole-word, case-insensitive containment: the model of
`new RegExp("\\b" + keyword + "\\b", "i").test(sql)` for an all-letter
keyword. `prevIsWord` tracks whether the previous character was a word
character, giving the left boundary; the right boundary checks the
character after the matched keyword. -/
def wholeWordAux (kw : List Char) : Bool → List Char → Bool
  | _, [] => false
  | prevIsWord, l@(c :: rest) =>
    (!prevIsWord && ciStarts kw l &&
      (match (l.drop kw.length).head? with
        | none => true
        | some c' => !isWordChar c')) ||
      wholeWordAux kw (isWordChar c) rest

/-- Whole-word containment over strings. -/
def containsWholeWord (sql kw : String) : Bool :=
  wholeWordAux kw.data false sql.data

/-- The fixed denylist of dangerous statement keywords. -/
def dangerousKeywords : List String :=
  ["DELETE", "DROP", "TRUNCATE", "ALTER", "GRANT", "REVOKE"]

/-- The hard error text produced for a dangerous keyword. -/
def dangerousMsg (kw : String) : String :=
  "Dangerous operation detected: " ++ kw ++ ". Only SELECT queries are allowed."

/-- `validateSafety`: one hard error per matched denylist keyword, in
denylist order. -/
def validateSafety (sql : String) : List String :=
  (dangerousKeywords.filter (fun kw => containsWholeWord sql kw)).map dangerousMsg

/-- The unknown-table error text. -/
def tableNotExistMsg (schema : FullSchema) (tableName : String) : String :=
  "Table " ++ quoted tableName ++ " does not exist. Available tables: " ++
    String.intercalate ", " (schema.map Prod.fst)

/-- The unknown-column error text, listing the available columns. -/
def colNotExistMsg (tableName columnName : String) (ts : TableSchema) : String :=
  "Column " ++ quoted columnName ++ " does not exist in table " ++
    quoted tableName ++ ". Available columns: " ++
    String.intercalate ", " (ts.columns.map Prod.fst)

/-- `validateColumnExists`: `*` is always accepted; otherwise the column
must exist on the table. -/
def validateColumnExists (tableName columnName : String) (ts : TableSchema) :
    List String :=
  if columnName = "*" then []
  else
    match lookupColumn ts columnName with
    | none => [colNotExistMsg tableName columnName ts]
    | some _ => []

/-- `validateAggregation`: errors and warnings produced for one
aggregation call. -/
def validateAggregation (tableName columnName fn : String) (ts : TableSchema) :
    List String × List String :=
  if columnName = "*" then
    (if fn ≠ "COUNT" then
      ["Cannot use " ++ fn ++ " on *. Only COUNT(*) is allowed."]
     else [], [])
  else
    match lookupColumn ts columnName with
    | none => ([], [])
    | some column =>
      let validTextAggregations := ["COUNT", "DISTINCT"]
      let e₁ :=
        if column.type = "text" ∧ ¬fn ∈ validTextAggregations then
          ["Cannot use " ++ fn ++ " on text column " ++
            quoted (tableName ++ "." ++ columnName) ++
            ". Use COUNT or DISTINCT instead."]
        else []
      let e₂ :=
        if column.type = "date" ∧ ¬fn ∈ ["MIN", "MAX", "COUNT"] then
          ["Cannot use " ++ fn ++ " on date column " ++
            quoted (tableName ++ "." ++ columnName) ++
            ". Use MIN, MAX, or COUNT instead."]
        else []
      let e₃ :=
        if column.type = "uuid" ∧ fn ≠ "COUNT" ∧ fn ≠ "DISTINCT" then
          ["Cannot use " ++ fn ++ " on UUID column " ++
            quoted (tableName ++ "." ++ columnName) ++
            ". Use COUNT or DISTINCT instead."]
        else []
      let w :=
        if column.aggregatable = some "false" ∧ fn ≠ "COUNT" ∧ fn ≠ "DISTINCT" then
          ["Column " ++ quoted (tableName ++ "." ++ columnName) ++
            " is not typically aggregatable. Verify this is intentional."]
        else []
      (e₁ ++ e₂ ++ e₃, w)

/-- The `\b(\w+)\.\w+` global scan of the hallucination detector,
returning the captured qualifiers in match order. -/
def scanQualifiers : Nat → Bool → List Char → List String
  | 0, _, _ => []
  | _ + 1, _, [] => []
  | fuel + 1, prevIsWord, l@(c :: rest) =>
    if !prevIsWord && isWordChar c then
      let run := takeWord l
      let afterRun := l.drop run.length
      if afterRun.head? == some '.' then
        let col := takeWord (afterRun.drop 1)
        if !col.isEmpty then
          (⟨run⟩ : String) :: scanQualifiers fuel true (afterRun.drop (1 + col.length))
        else scanQualifiers fuel (isWordChar c) rest
      else scanQualifiers fuel (isWordChar c) rest
    else scanQualifiers fuel (isWordChar c) rest

/-- Case-insensitive keyword with a right word boundary, the model of
`/KW\b/i.test(sql)` (note the regex carries no left boundary). -/
def kwRightBoundary (kw : List Char) : List Char → Bool
  | [] => false
  | l@(_ :: rest) =>
    (ciStarts kw l &&
      (match (l.drop kw.length).head? with
        | none => true
        | some c' => !isWordChar c')) ||
      kwRightBoundary kw rest

/-- `detectHallucinations`: suggestions only — unknown qualifiers that are
not `public` and not a table, plus the three keyword typo checks. -/
def detectHallucinations (sql : String) (schema : FullSchema) : List String :=
  let qualifiers := scanQualifiers (sql.data.length + 1) false sql.data
  let sugg₁ := qualifiers.filterMap (fun q =>
    if q ≠ "public" ∧ lookupTable schema q = none then
      some ("Verify that " ++ quoted q ++
        " is a valid table alias or fully qualified name.")
    else none)
  let sugg₂ :=
    if kwRightBoundary "FORM".data sql.data then
      ["Did you mean " ++ quoted "FROM" ++ " instead of " ++ quoted "FORM" ++ "?"]
    else []
  let sugg₃ :=
    if kwRightBoundary "SELECTE".data sql.data then
      ["Did you mean " ++ quoted "SELECT" ++ " instead of " ++ quoted "SELECTE" ++ "?"]
    else []
  let sugg₄ :=
    if kwRightBoundary "WHER".data sql.data then
      ["Did you mean " ++ quoted "WHERE" ++ " instead of " ++ quoted "WHER" ++ "?"]
    else []
  sugg₁ ++ sugg₂ ++ sugg₃ ++ sugg₄

/-- The per-column step of the validation loop: skip unqualified columns
in multi-table queries, resolve the target table as the qualifier when
written (falling back to the current table reference), skip targets that
are not tables, then check existence and the aggregation call. -/
def perColumn (schema : FullSchema) (numTables : Nat) (trName : String)
    (colRef : ColumnReference) : List String × List String :=
  if colRef.table = "" ∧ numTables > 1 then ([], [])
  else
    let targetTable := if colRef.table = "" then trName else colRef.table
    match lookupTable schema targetTable with
    | none => ([], [])
    | some ts =>
      let es := validateColumnExists targetTable colRef.column ts
      match colRef.aggregationFunction with
      | some fn =>
        let r := validateAggregation targetTable colRef.column fn ts
        (es ++ r.1, r.2)
      | none => (es, [])

/-- The per-table step: an unknown table reports its error and skips the
column checks for that reference. -/
def perTable (schema : FullSchema) (columnReferences : List ColumnReference)
    (numTables : Nat) (tr : TableReference) : List String × List String :=
  match lookupTable schema tr.name with
  | none => ([tableNotExistMsg schema tr.name], [])
  | some _ =>
    columnReferences.foldl (fun acc colRef =>
      let r := perColumn schema numTables tr.name colRef
      (acc.1 ++ r.1, acc.2 ++ r.2)) ([], [])

/-- The fixed missing-FROM error text. -/
def noTablesMsg : String :=
  "No tables found in query. Did you forget a FROM clause?"

/-- `validateQuery`: safety scan, table extraction, existence and
aggregation checks, hallucination suggestions, and the final SELECT
presence check; `valid` holds exactly when the hard-error list is empty. -/
def validateQuery (sql : String) : ValidationResult :=
  let schema := financeSchema
  let safetyErrors := validateSafety sql
  let tableReferences := extractTableReferences sql
  let noTableErrors := if tableReferences.isEmpty then [noTablesMsg] else []
  let columnReferences := extractColumnReferences sql
  let tableResults := tableReferences.foldl (fun acc tr =>
    let r := perTable schema columnReferences tableReferences.length tr
    (acc.1 ++ r.1, acc.2 ++ r.2)) (([], []) : List String × List String)
  let suggestions := detectHallucinations sql schema
  let selectErrors :=
    if !(strContains sql "SELECT" || strContains sql "select") then
      ["Query must include a SELECT clause"]
    else []
  let errors := safetyErrors ++ noTableErrors ++ tableResults.1 ++ selectErrors
  { valid := errors.isEmpty
    errors := errors
    warnings := tableResults.2
    suggestions := suggestions }

/-! ## Claims about the validator -/

theorem isEmpty_false_of_mem {α : Type} {x : α} {l : List α} (h : x ∈ l) :
    l.isEmpty = false := by
  cases l with
  | nil => cases h
  | cons a t => rfl

/-- C3: any SQL text containing a denylist keyword as a whole word,
case-insensitively and at any position, is invalid with a hard error
naming that keyword; the two spec examples behave as stated. -/
theorem safety_denylist_rejects :
    (∀ (sql kw : String), kw ∈ dangerousKeywords → containsWholeWord sql kw = true →
      (validateQuery sql).valid = false ∧
        dangerousMsg kw ∈ (validateQuery sql).errors) ∧
    (validateQuery "DELETE FROM accounts").valid = false ∧
    dangerousMsg "DELETE" ∈ (validateQuery "DELETE FROM accounts").errors ∧
    (validateQuery "SELECT COUNT(*) FROM accounts").valid = true := by
  have hmem : ∀ (sql kw : String), kw ∈ dangerousKeywords →
      containsWholeWord sql kw = true →
      dangerousMsg kw ∈ (validateQuery sql).errors := by
    intro sql kw hkw hww
    have h : dangerousMsg kw ∈ validateSafety sql :=
      List.mem_map_of_mem dangerousMsg (List.mem_filter.2 ⟨hkw, hww⟩)
    simp only [validateQuery]
    exact List.mem_append_left _ (List.mem_append_left _ (List.mem_append_left _ h))
  refine ⟨?_, by decide, by decide, by decide⟩
  intro sql kw hkw hww
  exact ⟨isEmpty_false_of_mem (hmem sql kw hkw hww), hmem sql kw hkw hww⟩

/-- Witness for C3 at a concrete dangerous statement. -/
theorem safety_denylist_rejects_witness :
    (validateQuery "DROP TABLE users").valid = false ∧
    dangerousMsg "DROP" ∈ (validateQuery "DROP TABLE users").errors :=
  safety_denylist_rejects.1 "DROP TABLE users" "DROP" (by decide) (by decide)

/-! ## C4 — existence checks -/

/-- C4 counterexample: a column qualified by a declared alias is not
resolved to the aliased table — `nope` is not a column of `accounts`, the
alias `a` is recorded by the extraction, and yet the query validates. -/
theorem alias_resolution_cx :
    (validateQuery "SELECT a.nope FROM accounts AS a").valid = true ∧
    extractTableReferences "SELECT a.nope FROM accounts AS a" =
      [⟨"accounts", some "a"⟩] ∧
    lookupColumn accountsTable "nope" = none := by
  decide

/-- C4 amended: unknown tables, unknown select-list columns (resolved to
the sole table when unqualified, or through the qualifier when the
qualifier itself names a table) and a missing FROM clause are hard
errors; a column qualified by an alias that is not a table name is
skipped without error. -/
theorem existence_checks_amended :
    (∀ sql : String, extractTableReferences sql = [] →
      noTablesMsg ∈ (validateQuery sql).errors ∧ (validateQuery sql).valid = false) ∧
    (validateQuery "SELECT ticker FROM securities").valid = true ∧
    (validateQuery "SELECT nope FROM securities").errors =
      [colNotExistMsg "securities" "nope" securitiesTable] ∧
    (validateQuery "SELECT nope FROM securities").valid = false ∧
    (validateQuery "SELECT balance FROM not_a_table").errors =
      [tableNotExistMsg financeSchema "not_a_table"] ∧
    (validateQuery "SELECT securities.nope FROM securities").valid = false ∧
    (validateQuery "SELECT a.nope FROM accounts AS a").valid = true := by
  refine ⟨?_, by decide, by decide, by decide, by decide, by decide, by decide⟩
  intro sql h
  have hm : noTablesMsg ∈ (validateQuery sql).errors := by
    simp only [validateQuery, h]
    simp
  exact ⟨hm, isEmpty_false_of_mem hm⟩

/-- Witness for the amended C4 on a query without a FROM clause. -/
theorem existence_checks_amended_witness :
    noTablesMsg ∈ (validateQuery "SELECT ticker").errors ∧
    (validateQuery "SELECT ticker").valid = false :=
  existence_checks_amended.1 "SELECT ticker" (by decide)

/-! ## C5 — aggregation typing -/

/-- C5: aggregation-type compatibility is enforced as hard errors — text
columns accept only COUNT/DISTINCT, date columns only MIN/MAX/COUNT, uuid
columns only COUNT/DISTINCT, `COUNT(*)` is always allowed and any other
function on `*` is a hard error — while a type-compatible aggregation of
a column tagged non-aggregatable yields a warning and no hard error; the
two spec examples behave as stated. -/
theorem aggregation_typing :
    (∀ (tn fn : String) (ts : TableSchema),
      validateAggregation tn "*" "COUNT" ts = ([], []) ∧
      (fn ≠ "COUNT" →
        validateAggregation tn "*" fn ts =
          (["Cannot use " ++ fn ++ " on *. Only COUNT(*) is allowed."], []))) ∧
    (∀ (tn cn fn : String) (ts : TableSchema) (ci : ColumnInfo),
      cn ≠ "*" → lookupColumn ts cn = some ci →
      (ci.type = "text" → ¬fn ∈ ["COUNT", "DISTINCT"] →
        ("Cannot use " ++ fn ++ " on text column " ++ quoted (tn ++ "." ++ cn) ++
          ". Use COUNT or DISTINCT instead.") ∈ (validateAggregation tn cn fn ts).1) ∧
      (ci.type = "date" → ¬fn ∈ ["MIN", "MAX", "COUNT"] →
        ("Cannot use " ++ fn ++ " on date column " ++ quoted (tn ++ "." ++ cn) ++
          ". Use MIN, MAX, or COUNT instead.") ∈ (validateAggregation tn cn fn ts).1) ∧
      (ci.type = "uuid" → fn ≠ "COUNT" → fn ≠ "DISTINCT" →
        ("Cannot use " ++ fn ++ " on UUID column " ++ quoted (tn ++ "." ++ cn) ++
          ". Use COUNT or DISTINCT instead.") ∈ (validateAggregation tn cn fn ts).1) ∧
      (ci.aggregatable = some "false" → fn ≠ "COUNT" → fn ≠ "DISTINCT" →
        ci.type ≠ "text" → ci.type ≠ "date" → ci.type ≠ "uuid" →
        validateAggregation tn cn fn ts =
          ([], ["Column " ++ quoted (tn ++ "." ++ cn) ++
            " is not typically aggregatable. Verify this is intentional."]))) ∧
    (validateQuery "SELECT SUM(ticker) FROM securities").valid = false ∧
    ("Cannot use SUM on text column " ++ quoted "securities.ticker" ++
      ". Use COUNT or DISTINCT instead.")
      ∈ (validateQuery "SELECT SUM(ticker) FROM securities").errors ∧
    (validateQuery "SELECT SUM(balance) FROM accounts").valid = true := by
  refine ⟨?_, ?_, by decide, by decide, by decide⟩
  · intro tn fn ts
    constructor
    · simp [validateAggregation]
    · intro hfn
      simp [validateAggregation, hfn]
  · intro tn cn fn ts ci hcn hlook
    refine ⟨?_, ?_, ?_, ?_⟩
    · intro htype hfn
      simp [validateAggregation, hcn, hlook, htype, hfn]
    · intro htype hfn
      simp [validateAggregation, hcn, hlook, htype, hfn]
    · intro htype hfn₁ hfn₂
      simp [validateAggregation, hcn, hlook, htype, hfn₁, hfn₂]
    · intro hagg hfn₁ hfn₂ ht₁ ht₂ ht₃
      simp [validateAggregation, hcn, hlook, hagg, hfn₁, hfn₂, ht₁, ht₂, ht₃]

/-- Witness for C5 at concrete columns of the registry: star behaviour,
a text violation, and the warning-only case on the non-aggregatable
integer column `budgets.budget_month`. -/
theorem aggregation_typing_witness :
    validateAggregation "securities" "*" "COUNT" securitiesTable = ([], []) ∧
    validateAggregation "securities" "*" "AVG" securitiesTable =
      (["Cannot use AVG on *. Only COUNT(*) is allowed."], []) ∧
    ("Cannot use SUM on text column " ++ quoted ("securities" ++ "." ++ "ticker") ++
      ". Use COUNT or DISTINCT instead.")
      ∈ (validateAggregation "securities" "ticker" "SUM" securitiesTable).1 ∧
    validateAggregation "budgets" "budget_month" "SUM" budgetsTable =
      ([], ["Column " ++ quoted ("budgets" ++ "." ++ "budget_month") ++
        " is not typically aggregatable. Verify this is intentional."]) :=
  ⟨(aggregation_typing.1 "securities" "AVG" securitiesTable).1,
   (aggregation_typing.1 "securities" "AVG" securitiesTable).2 (by decide),
   (aggregation_typing.2.1 "securities" "ticker" "SUM" securitiesTable
      (colA "text" "Security ticker symbol" "false") (by decide) (by decide)).1
     (by decide) (by decide),
   ((aggregation_typing.2.1 "budgets" "budget_month" "SUM" budgetsTable
      (colA "integer" "Budget month (1-12)" "false") (by decide) (by decide)).2.2.2)
     (by decide) (by decide) (by decide) (by decide) (by decide) (by decide)⟩

end FinanceAgent
